import Mathlib

/-!
Shallow embedding of `src/nes/rom.py` (the `NesRom` class of nesi) and proofs
about its header-decoding behaviour.

Modelling conventions:
* A byte string is a `List Nat` (each element is one octet; theorems that need
  the byte range add `< 256` hypotheses explicitly).
* Python 2 semantics are embedded (the file uses
  `from __future__ import print_function`): a slice comparison
  `bytearray[0:4] == 'NES\x1a'` compares byte contents, slicing truncates
  silently, and single-element indexing `rom_data[i]` raises `IndexError`
  when `i` is out of range.  Fallible indexing is embedded as `Option`:
  `none` models the raised exception.
* `print_analysis` prints lines to stdout; it is embedded as a function
  returning the list of printed lines (`none` when the run raises), paired
  with the rom state after the run, making the absence of mutation explicit.
* Integer division `rom_size / 1024` is Python 2 floor division on `int`,
  i.e. `Nat` division.
-/

/-- The four magic bytes `'NES\x1a'` = `N`, `E`, `S`, `0x1A`. -/
def magicBytes : List Nat := [78, 69, 83, 26]

/-- Modelled from the spec: metadata about one mapper chip returned by the
mapper registry (`nes/mappers.py` is not under `src/`; only its lookup shape
matters here: a name and an examples string). -/
structure MapperInfo where
  name : String
  examples : String
deriving DecidableEq

/-- Modelled from the spec: the mapper-registry lookup `nes.mappers.find`
(`nes/mappers.py` is not under `src/`).  The spec's contract (§4.2): a total,
read-only lookup that never fails; ids absent from the static table resolve
to a sentinel with name "Unknown" rather than an error.  The table's contents
are external data out of scope; only totality is used by any theorem below. -/
def mappersFind (_mapperId : Nat) : MapperInfo :=
  { name := "Unknown", examples := "None" }

/-- Modelled from the spec: `nesi_information()` formats the version/author
metadata from `nes.settings.build()` (`nes/settings.py` is not under `src/`;
the spec places the metadata string out of scope).  Only the fact that it is
a fixed string independent of the rom is used below. -/
def nesi_information : String := "nesi"

/-- Python `str.ljust`: pad on the right with spaces up to the given width. -/
def ljust (s : String) (width : Nat) : String :=
  s ++ String.mk (List.replicate (width - s.length) ' ')

/-- `fmt_str` from `rom.py`: tag left-justified to width 12, then the
separator `' | '` (the default is used at every call site), then the string. -/
def fmt_str (tag s : String) : String :=
  ljust tag 12 ++ " | " ++ s

/-- The `NesRom` object: display name, raw bytes, and the stored byte count
(`__init__` sets `self.rom_size = len(self.rom_data)`). -/
structure NesRom where
  rom_name : String
  rom_data : List Nat
  rom_size : Nat
deriving DecidableEq

/-- Construction of a `NesRom` from a display name and the file's bytes
(file I/O itself is the external collaborator; `__init__` stores the basename,
the bytes, and their length). -/
def NesRom.make (name : String) (data : List Nat) : NesRom :=
  { rom_name := name, rom_data := data, rom_size := data.length }

/-- `NesRom.battery`: `'Yes'` iff bit 1 of byte 6 is set, else `'No'`;
`none` models the `IndexError` when byte 6 does not exist. -/
def NesRom.battery (rom : NesRom) : Option String :=
  (rom.rom_data.get? 6).map fun b =>
    if (b >>> 1) &&& 1 == 1 then "Yes" else "No"

/-- `NesRom.fourscreen`: `'Yes'` iff bit 3 of byte 6 is set, else `'No'`. -/
def NesRom.fourscreen (rom : NesRom) : Option String :=
  (rom.rom_data.get? 6).map fun b =>
    if (b >>> 3) &&& 1 == 1 then "Yes" else "No"

/-- `NesRom.trainer`: `'Yes'` iff bit 2 of byte 6 is set, else `'None'`. -/
def NesRom.trainer (rom : NesRom) : Option String :=
  (rom.rom_data.get? 6).map fun b =>
    if (b >>> 2) &&& 1 == 1 then "Yes" else "None"

/-- `NesRom.mapper_id`: `(rom_data[6] >> 4) | ((rom_data[7] >> 4) << 4)`. -/
def NesRom.mapper_id (rom : NesRom) : Option Nat := do
  let b6 ← rom.rom_data.get? 6
  let b7 ← rom.rom_data.get? 7
  return (b6 >>> 4) ||| ((b7 >>> 4) <<< 4)

/-- `NesRom.mapper`: `'{id} ({name})'` with the registry lookup's name. -/
def NesRom.mapper (rom : NesRom) : Option String :=
  rom.mapper_id.map fun mid =>
    toString mid ++ " (" ++ (mappersFind mid).name ++ ")"

/-- `NesRom.examples`: the registry entry's examples string. -/
def NesRom.examples (rom : NesRom) : Option String :=
  rom.mapper_id.map fun mid => (mappersFind mid).examples

/-- `NesRom.mirroring`: `'Vertical'` iff bit 0 of byte 6 is set, else
`'Horizontal'`. -/
def NesRom.mirroring (rom : NesRom) : Option String :=
  (rom.rom_data.get? 6).map fun b =>
    if b &&& 1 == 1 then "Vertical" else "Horizontal"

/-- `fmt_hex_str` (local helper inside `NesRom.header`): Python
`hex(n).replace('0x', '').upper()` — upper-case hex digits, no padding. -/
def fmt_hex_str (n : Nat) : String :=
  String.mk ((Nat.toDigits 16 n).map Char.toUpper)

/-- `NesRom.header`: the first 16 bytes rendered as space-separated
upper-case hex (the slice `rom_data[0:16]` truncates, never raises). -/
def NesRom.header (rom : NesRom) : String :=
  String.intercalate " " ((rom.rom_data.take 16).map fmt_hex_str)

/-- `NesRom.dirty_header`: `all(byte == 0 for byte in self.rom_data[6:17])` —
true iff every byte of the slice `[6:17]` (indices 6..16) is zero. -/
def NesRom.dirty_header (rom : NesRom) : Bool :=
  ((rom.rom_data.drop 6).take 11).all fun b => b == 0

/-- `NesRom.contains_magic_number`: `self.rom_data[0:4] == 'NES\x1a'`
(Python 2 content comparison of the 4-byte slice against the magic). -/
def NesRom.contains_magic_number (rom : NesRom) : Bool :=
  rom.rom_data.take 4 == magicBytes

/-- `NesRom.prg_count`: `'{total}kb ({count} x 16kb pages)'` with
`count = rom_data[4]`, `total = rom_data[4] * 16`. -/
def NesRom.prg_count (rom : NesRom) : Option String :=
  (rom.rom_data.get? 4).map fun c =>
    toString (c * 16) ++ "kb (" ++ toString c ++ " x 16kb pages)"

/-- `NesRom.chr_count`: `'{total}kb ({count} x 8kb pages)'` with
`count = rom_data[5]`, `total = rom_data[5] * 8`. -/
def NesRom.chr_count (rom : NesRom) : Option String :=
  (rom.rom_data.get? 5).map fun c =>
    toString (c * 8) ++ "kb (" ++ toString c ++ " x 8kb pages)"

/-- `NesRom.print_analysis`, embedded as the list of lines printed to stdout
(`none` when the run raises an `IndexError` part-way), paired with the rom
state after the run.  The line order follows the source: nesi banner, blank
line, ROM line, then either the bail-out invalid status, or the valid status
followed by header, notes, PRG, CHR, Mapper, Example(s), Mirroring, Trainer,
FourScreen, Battery. -/
def NesRom.print_analysis (rom : NesRom) : Option (List String) × NesRom :=
  let romLine := fmt_str "ROM"
    (rom.rom_name ++ " (" ++ toString rom.rom_size ++ " bytes, " ++
      toString (rom.rom_size / 1024) ++ "kb)")
  if rom.contains_magic_number then
    let status := fmt_str "Status" "Appears to be a valid .nes rom"
    let headerLine := fmt_str "Header" rom.header
    let notes :=
      if rom.dirty_header then
        fmt_str "Note(s)" "Bytes 7-15 appear to not be clean!"
      else
        fmt_str "Note(s)" "Bytes 7-15 appear clean"
    let out : Option (List String) := do
      let prg ← rom.prg_count
      let chrLine ← rom.chr_count
      let mapperLine ← rom.mapper
      let exLine ← rom.examples
      let mirror ← rom.mirroring
      let train ← rom.trainer
      let four ← rom.fourscreen
      let bat ← rom.battery
      return [nesi_information, "", romLine, status, headerLine, notes,
        fmt_str "PRG" prg, fmt_str "CHR" chrLine, fmt_str "Mapper" mapperLine,
        fmt_str "Example(s)" exLine, fmt_str "Mirroring" mirror,
        fmt_str "Trainer" train, fmt_str "FourScreen" four,
        fmt_str "Battery" bat]
    (out, rom)
  else
    (some [nesi_information, "", romLine,
      fmt_str "Status" "Does not appear to be a valid .nes rom"], rom)

/-! Projection helpers for `NesRom.make`. -/

theorem make_rom_data (name : String) (data : List Nat) :
    (NesRom.make name data).rom_data = data := rfl

theorem make_rom_name (name : String) (data : List Nat) :
    (NesRom.make name data).rom_name = name := rfl

theorem make_rom_size (name : String) (data : List Nat) :
    (NesRom.make name data).rom_size = data.length := rfl

theorem exists_getElem?_of_lt (l : List Nat) (i : Nat) (h : i < l.length) :
    ∃ b, l[i]? = some b := by
  cases hg : l[i]? with
  | none => exact absurd (List.getElem?_eq_none_iff.mp hg) (by omega)
  | some b => exact ⟨b, rfl⟩

theorem print_analysis_state_eq (rom : NesRom) :
    (rom.print_analysis).2 = rom := by
  by_cases h : rom.contains_magic_number = true <;>
    simp [NesRom.print_analysis, h]

/-- C1 (counterexample): the claim says `print_analysis` completes for every
input and in particular performs no out-of-bounds read on inputs shorter than
16 bytes.  The 4-byte input `'NES\x1a'` passes the magic check, after which
`prg_count` reads `rom_data[4]` out of bounds: the embedded run raises
(`none`), so analysis does not produce a report. -/
theorem print_analysis_raises_on_short_magic_input :
    ((NesRom.make "short" [78, 69, 83, 26]).print_analysis).1 = none := by
  decide

/-- C1 (amended): `print_analysis` completes and produces a full report
whenever the magic check fails (any length) or the input has length ≥ 8 — in
particular for every input of length ≥ 16; there is no too-short guard, so
magic-prefixed inputs of length 4–7 raise instead. -/
theorem print_analysis_totality_amended (name : String) (data : List Nat)
    (h : (NesRom.make name data).contains_magic_number = true →
      8 ≤ data.length) :
    (((NesRom.make name data).print_analysis).1).isSome := by
  by_cases hm : (NesRom.make name data).contains_magic_number = true
  · have _hlen := h hm
    obtain ⟨b4, h4⟩ := exists_getElem?_of_lt data 4 (by omega)
    obtain ⟨b5, h5⟩ := exists_getElem?_of_lt data 5 (by omega)
    obtain ⟨b6, h6⟩ := exists_getElem?_of_lt data 6 (by omega)
    obtain ⟨b7, h7⟩ := exists_getElem?_of_lt data 7 (by omega)
    simp [NesRom.print_analysis, hm, NesRom.prg_count, NesRom.chr_count,
      NesRom.mapper, NesRom.examples, NesRom.mapper_id, NesRom.mirroring,
      NesRom.trainer, NesRom.fourscreen, NesRom.battery, make_rom_data,
      h4, h5, h6, h7]
  · simp [NesRom.print_analysis, hm]

/-- C1 (witness): a well-formed 16-byte header satisfies the hypothesis and
yields a complete report. -/
theorem print_analysis_totality_amended_witness :
    ((NesRom.make "w" ([78, 69, 83, 26, 2, 1, 16, 32] ++ List.replicate 8 0)).contains_magic_number = true →
      8 ≤ ([78, 69, 83, 26, 2, 1, 16, 32] ++ List.replicate 8 0 : List Nat).length) ∧
    (((NesRom.make "w" ([78, 69, 83, 26, 2, 1, 16, 32] ++ List.replicate 8 0)).print_analysis).1).isSome :=
  ⟨by decide,
    print_analysis_totality_amended "w"
      ([78, 69, 83, 26, 2, 1, 16, 32] ++ List.replicate 8 0) (by decide)⟩

/-- C2 (code bug): the claim — `dirty_header` true iff some byte of the
inclusive range [6,16] is nonzero — matches the predicate's own name and its
use in `print_analysis` (true selects the "appear to not be clean!" note),
but the body computes the opposite: it is `all(byte == 0 ...)`, true exactly
when the whole scanned range is zero.  Evaluated: a rom whose bytes 6–16 are
all zero gets `dirty_header = true`; one with byte 6 = 1 gets `false`; and a
valid rom whose reserved range is entirely zero is reported "Bytes 7-15
appear to not be clean!". -/
theorem dirty_header_inverted_on_code :
    (NesRom.make "r" (List.replicate 17 0)).dirty_header = true ∧
    (NesRom.make "r"
      (List.replicate 6 0 ++ [1] ++ List.replicate 10 0)).dirty_header = false ∧
    (((NesRom.make "r"
      ([78, 69, 83, 26, 2, 1, 0, 0] ++ List.replicate 8 0)).print_analysis).1.getD []).get? 5 =
      some (fmt_str "Note(s)" "Bytes 7-15 appear to not be clean!") := by
  decide

/-- C3: for inputs of length ≥ 16, `contains_magic_number` is true iff bytes
0–3 are exactly `0x4E 0x45 0x53 0x1A`; equivalently, changing any one of the
four bytes falsifies one conjunct and hence the predicate. -/
theorem contains_magic_number_iff_first_four_bytes (name : String)
    (data : List Nat) (h : 16 ≤ data.length) :
    (NesRom.make name data).contains_magic_number = true ↔
      (data[0]? = some 78 ∧ data[1]? = some 69 ∧
        data[2]? = some 83 ∧ data[3]? = some 26) := by
  match data with
  | [] | [_] | [_, _] | [_, _, _] => simp at h
  | a :: b :: c :: d :: rest =>
      simp [NesRom.contains_magic_number, NesRom.make, magicBytes, List.take]

/-- C3 (witness): a 16-byte input starting with the magic satisfies the
predicate. -/
theorem contains_magic_number_iff_first_four_bytes_witness :
    16 ≤ ([78, 69, 83, 26] ++ List.replicate 12 0 : List Nat).length ∧
    (NesRom.make "w" ([78, 69, 83, 26] ++ List.replicate 12 0)).contains_magic_number = true :=
  ⟨by decide,
    (contains_magic_number_iff_first_four_bytes "w"
      ([78, 69, 83, 26] ++ List.replicate 12 0) (by decide)).mpr (by decide)⟩

/-- C4 (counterexample): the claim says every input shorter than 16 bytes is
reported "invalid — too short" with no bit decoding.  The 8-byte input
`'NES\x1a',2,1,0,0` is shorter than 16, yet the report's status line reads
"Appears to be a valid .nes rom" and the PRG line shows a fully decoded page
count. -/
theorem short_input_reported_valid_and_decoded :
    (NesRom.make "r" [78, 69, 83, 26, 2, 1, 0, 0]).rom_size < 16 ∧
    (((NesRom.make "r" [78, 69, 83, 26, 2, 1, 0, 0]).print_analysis).1.getD []).get? 3 =
      some (fmt_str "Status" "Appears to be a valid .nes rom") ∧
    (((NesRom.make "r" [78, 69, 83, 26, 2, 1, 0, 0]).print_analysis).1.getD []).get? 6 =
      some (fmt_str "PRG" "32kb (2 x 16kb pages)") := by
  decide

/-- C4 (amended): there is no dedicated "too short" status.  A byte sequence
shorter than 16 bytes that fails the magic check gets a four-line report
whose status is "Does not appear to be a valid .nes rom", with no bit
decoding (magic-passing short inputs are instead decoded, length 8–15, or
raise, length 4–7). -/
theorem short_input_report_amended (name : String) (data : List Nat)
    (hlen : data.length < 16)
    (hmagic : (NesRom.make name data).contains_magic_number = false) :
    ((NesRom.make name data).print_analysis).1 =
      some [nesi_information, "",
        fmt_str "ROM" (name ++ " (" ++ toString data.length ++ " bytes, " ++
          toString (data.length / 1024) ++ "kb)"),
        fmt_str "Status" "Does not appear to be a valid .nes rom"] := by
  simp [NesRom.print_analysis, make_rom_name, make_rom_size, hmagic]

/-- C4 (witness): the three-byte input `[1, 2, 3]`. -/
theorem short_input_report_amended_witness :
    ([1, 2, 3] : List Nat).length < 16 ∧
    (NesRom.make "w" [1, 2, 3]).contains_magic_number = false ∧
    ((NesRom.make "w" [1, 2, 3]).print_analysis).1 =
      some [nesi_information, "",
        fmt_str "ROM" ("w" ++ " (" ++ toString ([1, 2, 3] : List Nat).length ++
          " bytes, " ++ toString (([1, 2, 3] : List Nat).length / 1024) ++ "kb)"),
        fmt_str "Status" "Does not appear to be a valid .nes rom"] :=
  ⟨by decide, by decide,
    short_input_report_amended "w" [1, 2, 3] (by decide) (by decide)⟩

/-- C5 (counterexample): the claim says a report for a magic-failing input
still includes the raw header bytes.  For 16 zero bytes the magic check
fails and the header line (`fmt_str "Header" ...`) is not among the printed
lines: the code bails out right after the status line. -/
theorem invalid_magic_report_omits_header :
    (NesRom.make "r" (List.replicate 16 0)).contains_magic_number = false ∧
    fmt_str "Header" ((NesRom.make "r" (List.replicate 16 0)).header) ∉
      (((NesRom.make "r" (List.replicate 16 0)).print_analysis).1.getD []) := by
  decide

/-- C5 (amended): when the magic check fails, `print_analysis` returns
exactly the four lines banner, blank, ROM and the invalid status — so no
further interpretation is performed, but no header-byte line is included
either. -/
theorem invalid_magic_bail_out (name : String) (data : List Nat)
    (hmagic : (NesRom.make name data).contains_magic_number = false) :
    ((NesRom.make name data).print_analysis).1 =
      some [nesi_information, "",
        fmt_str "ROM" (name ++ " (" ++ toString data.length ++ " bytes, " ++
          toString (data.length / 1024) ++ "kb)"),
        fmt_str "Status" "Does not appear to be a valid .nes rom"] := by
  simp [NesRom.print_analysis, make_rom_name, make_rom_size, hmagic]

/-- C5 (witness): twenty bytes of `7`, a full-length non-rom input. -/
theorem invalid_magic_bail_out_witness :
    (NesRom.make "w" (List.replicate 20 7)).contains_magic_number = false ∧
    ((NesRom.make "w" (List.replicate 20 7)).print_analysis).1 =
      some [nesi_information, "",
        fmt_str "ROM" ("w" ++ " (" ++ toString (List.replicate 20 7 : List Nat).length ++
          " bytes, " ++ toString ((List.replicate 20 7 : List Nat).length / 1024) ++ "kb)"),
        fmt_str "Status" "Does not appear to be a valid .nes rom"] :=
  ⟨by decide, invalid_magic_bail_out "w" (List.replicate 20 7) (by decide)⟩

/-- C6: for inputs long enough to hold bytes 6 and 7, `mapper_id` is
`(byte6 >> 4) | ((byte7 >> 4) << 4)`, and for byte values the result is in
0–255. -/
theorem mapper_id_nibble_reconstruction (name : String) (data : List Nat)
    (b6 b7 : Nat) (h6 : data[6]? = some b6) (h7 : data[7]? = some b7)
    (hb6 : b6 < 256) (hb7 : b7 < 256) :
    (NesRom.make name data).mapper_id =
      some ((b6 >>> 4) ||| ((b7 >>> 4) <<< 4)) ∧
    (b6 >>> 4) ||| ((b7 >>> 4) <<< 4) < 256 := by
  constructor
  · simp [NesRom.mapper_id, make_rom_data, h6, h7]
  · have h1 : b6 >>> 4 < 2 ^ 8 := by
      rw [Nat.shiftRight_eq_div_pow]
      exact lt_of_le_of_lt (Nat.div_le_self _ _) (by norm_num [hb6])
    have h2 : (b7 >>> 4) <<< 4 < 2 ^ 8 := by
      rw [Nat.shiftRight_eq_div_pow, Nat.shiftLeft_eq]
      have hq : b7 / 2 ^ 4 < 16 := by omega
      norm_num at hq ⊢
      omega
    have hor := Nat.or_lt_two_pow h1 h2
    norm_num at hor
    exact hor

/-- C6 (witness): byte6 = `0x10`, byte7 = `0x20` gives mapper id
`0x21 = 33`. -/
theorem mapper_id_nibble_reconstruction_witness :
    ([78, 69, 83, 26, 2, 1, 16, 32] ++ List.replicate 8 0 : List Nat)[6]? = some 16 ∧
    ([78, 69, 83, 26, 2, 1, 16, 32] ++ List.replicate 8 0 : List Nat)[7]? = some 32 ∧
    (NesRom.make "w" ([78, 69, 83, 26, 2, 1, 16, 32] ++ List.replicate 8 0)).mapper_id = some 33 := by
  refine ⟨by decide, by decide, ?_⟩
  have h := mapper_id_nibble_reconstruction "w"
    ([78, 69, 83, 26, 2, 1, 16, 32] ++ List.replicate 8 0)
    16 32 (by decide) (by decide) (by decide) (by decide)
  exact h.1.trans (by decide)

/-- C7: byte 6's low bits drive the flag decoders — bit 0 selects the
mirroring string (set ⇒ `'Vertical'`, clear ⇒ `'Horizontal'`), bit 1 the
battery string, bit 2 the trainer string, bit 3 the fourscreen string. -/
theorem flag_bits_decoded_from_byte6 (name : String) (data : List Nat)
    (b6 : Nat) (h6 : data[6]? = some b6) :
    (NesRom.make name data).mirroring =
      some (if b6.testBit 0 then "Vertical" else "Horizontal") ∧
    (NesRom.make name data).battery =
      some (if b6.testBit 1 then "Yes" else "No") ∧
    (NesRom.make name data).trainer =
      some (if b6.testBit 2 then "Yes" else "None") ∧
    (NesRom.make name data).fourscreen =
      some (if b6.testBit 3 then "Yes" else "No") := by
  refine ⟨?_, ?_, ?_, ?_⟩ <;>
    simp [NesRom.mirroring, NesRom.battery, NesRom.trainer, NesRom.fourscreen,
      make_rom_data, h6, Nat.testBit_to_div_mod, Nat.shiftRight_eq_div_pow]

/-- C7 (witness): byte6 = `0b00001011` gives Vertical mirroring, battery
backed, no trainer, four-screen set. -/
theorem flag_bits_decoded_from_byte6_witness :
    ([78, 69, 83, 26, 2, 1, 11, 0] ++ List.replicate 8 0 : List Nat)[6]? = some 11 ∧
    (NesRom.make "w" ([78, 69, 83, 26, 2, 1, 11, 0] ++ List.replicate 8 0)).mirroring = some "Vertical" ∧
    (NesRom.make "w" ([78, 69, 83, 26, 2, 1, 11, 0] ++ List.replicate 8 0)).battery = some "Yes" ∧
    (NesRom.make "w" ([78, 69, 83, 26, 2, 1, 11, 0] ++ List.replicate 8 0)).trainer = some "None" ∧
    (NesRom.make "w" ([78, 69, 83, 26, 2, 1, 11, 0] ++ List.replicate 8 0)).fourscreen = some "Yes" := by
  have h := flag_bits_decoded_from_byte6 "w"
    ([78, 69, 83, 26, 2, 1, 11, 0] ++ List.replicate 8 0) 11 (by decide)
  exact ⟨by decide, h.1.trans (by decide), h.2.1.trans (by decide),
    h.2.2.1.trans (by decide), h.2.2.2.trans (by decide)⟩

/-- C8: the PRG page string is `'{byte4*16}kb ({byte4} x 16kb pages)'` and
the CHR page string is `'{byte5*8}kb ({byte5} x 8kb pages)'`. -/
theorem page_count_strings (name : String) (data : List Nat) (b4 b5 : Nat)
    (h4 : data[4]? = some b4) (h5 : data[5]? = some b5) :
    (NesRom.make name data).prg_count =
      some (toString (b4 * 16) ++ "kb (" ++ toString b4 ++ " x 16kb pages)") ∧
    (NesRom.make name data).chr_count =
      some (toString (b5 * 8) ++ "kb (" ++ toString b5 ++ " x 8kb pages)") := by
  constructor <;>
    simp [NesRom.prg_count, NesRom.chr_count, make_rom_data, h4, h5]

/-- C8 (witness): byte4 = 2 gives `"32kb (2 x 16kb pages)"`, byte5 = 1 gives
`"8kb (1 x 8kb pages)"`. -/
theorem page_count_strings_witness :
    ([78, 69, 83, 26, 2, 1, 0, 0] ++ List.replicate 8 0 : List Nat)[4]? = some 2 ∧
    ([78, 69, 83, 26, 2, 1, 0, 0] ++ List.replicate 8 0 : List Nat)[5]? = some 1 ∧
    (NesRom.make "w" ([78, 69, 83, 26, 2, 1, 0, 0] ++ List.replicate 8 0)).prg_count =
      some "32kb (2 x 16kb pages)" ∧
    (NesRom.make "w" ([78, 69, 83, 26, 2, 1, 0, 0] ++ List.replicate 8 0)).chr_count =
      some "8kb (1 x 8kb pages)" := by
  have h := page_count_strings "w"
    ([78, 69, 83, 26, 2, 1, 0, 0] ++ List.replicate 8 0) 2 1 (by decide) (by decide)
  exact ⟨by decide, by decide, h.1.trans (by decide), h.2.trans (by decide)⟩

/-- C9: `print_analysis` is a pure, deterministic function of the stored
(name, bytes): running it a second time on the rom state left by the first
run prints the same lines, and the rom state after a run is exactly the
constructed rom — no mutation of the stored bytes occurs. -/
theorem print_analysis_deterministic_readonly (name : String)
    (data : List Nat) :
    ((((NesRom.make name data).print_analysis).2.print_analysis).1 =
      ((NesRom.make name data).print_analysis).1) ∧
    ((NesRom.make name data).print_analysis).2 = NesRom.make name data := by
  refine ⟨?_, print_analysis_state_eq _⟩
  rw [print_analysis_state_eq]

/-- C10: the trainer decoder answers `'None'` (not `'No'`) when bit 2 of
byte 6 is clear and can never answer `'No'` for any input, while the battery
and fourscreen decoders answer `'No'` for their cleared bits. -/
theorem trainer_reports_none_not_no (name : String) (data : List Nat)
    (b6 : Nat) (h6 : data[6]? = some b6) :
    (∀ d2 : List Nat, (NesRom.make name d2).trainer ≠ some "No") ∧
    (¬ b6.testBit 2 → (NesRom.make name data).trainer = some "None") ∧
    (¬ b6.testBit 1 → (NesRom.make name data).battery = some "No") ∧
    (¬ b6.testBit 3 → (NesRom.make name data).fourscreen = some "No") := by
  refine ⟨?_, ?_, ?_, ?_⟩
  · intro d2
    cases hg : d2[6]? with
    | none => simp [NesRom.trainer, make_rom_data, hg]
    | some b =>
        simp [NesRom.trainer, make_rom_data, hg]
        split <;> decide
  · intro hbit
    simp [Nat.testBit_to_div_mod] at hbit
    simp [NesRom.trainer, make_rom_data, h6, Nat.shiftRight_eq_div_pow, hbit]
  · intro hbit
    simp [Nat.testBit_to_div_mod] at hbit
    simp [NesRom.battery, make_rom_data, h6, Nat.shiftRight_eq_div_pow, hbit]
  · intro hbit
    simp [Nat.testBit_to_div_mod] at hbit
    simp [NesRom.fourscreen, make_rom_data, h6, Nat.shiftRight_eq_div_pow, hbit]

/-- C10 (witness): byte6 = 0 — trainer answers `'None'`, battery and
fourscreen answer `'No'`. -/
theorem trainer_reports_none_not_no_witness :
    ([78, 69, 83, 26, 2, 1, 0, 0] ++ List.replicate 8 0 : List Nat)[6]? = some 0 ∧
    (NesRom.make "w" ([78, 69, 83, 26, 2, 1, 0, 0] ++ List.replicate 8 0)).trainer = some "None" ∧
    (NesRom.make "w" ([78, 69, 83, 26, 2, 1, 0, 0] ++ List.replicate 8 0)).battery = some "No" ∧
    (NesRom.make "w" ([78, 69, 83, 26, 2, 1, 0, 0] ++ List.replicate 8 0)).fourscreen = some "No" := by
  have h := trainer_reports_none_not_no "w"
    ([78, 69, 83, 26, 2, 1, 0, 0] ++ List.replicate 8 0) 0 (by decide)
  exact ⟨by decide, h.2.1 (by decide), h.2.2.1 (by decide), h.2.2.2 (by decide)⟩
